import Mathlib

/-!
Shallow embedding of the haltic crate (src/lib.rs): a wrapper making
long-running service loops cancellable.  The loop body is an opaque
`for_each` acting on a private state; the drivers `run` and the
background loop of `spawn` are modelled with explicit fuel (`none`
means "still looping after that many unfoldings", since the source
loops are unbounded) and are instrumented with a count of `for_each`
invocations.  The shared `Arc<AtomicBool>` run flag is modelled by a
store of flag cells indexed by an allocation identity, so that Arc
cloning (sharing a cell) is distinguished from duplicating a cell.
-/

/-- Tells if the main service loop should continue or not
(src/lib.rs, `enum LoopState`). -/
inductive LoopState : Type
  | Continue : LoopState
  | Break : LoopState
deriving DecidableEq

/-- Identity of one shared atomic flag cell: the allocation created by
`Arc::new(AtomicBool::new(..))` in `spawn`. -/
abbrev FlagId := Nat

/-- Contents of every atomic flag cell: a map from cell identity to the
boolean it currently holds. -/
abbrev Store := FlagId → Bool

/-- `Canceller` (src/lib.rs): holds shared ownership of one atomic flag
cell, recorded by the identity of the cell its `keep_running` Arc
points at. -/
structure Canceller : Type where
  keep_running : FlagId
deriving DecidableEq

/-- `Canceller::cancel`: `self.keep_running.store(false, Ordering::SeqCst)`.
Effect on the store of flag cells: the shared cell is set to false and
every other cell is unchanged. -/
def Canceller.cancel (c : Canceller) (s : Store) : Store :=
  fun i => if i = c.keep_running then false else s i

/-- `#[derive(Clone)]` on `Canceller`: cloning clones the Arc, so the
clone refers to the same flag cell (same identity), not to a copy. -/
def Canceller.clone (c : Canceller) : Canceller :=
  { keep_running := c.keep_running }

/-- `Handle` (src/lib.rs): wraps the `Canceller` for the spawned loop's
flag.  The `executor` JoinHandle has no shallow value; the spawned
computation is modelled by `spawnAux` and its join outcome by
`JoinOutcome`. -/
structure Handle : Type where
  canceller : Canceller

/-- `impl Deref for Handle`: dereferencing a Handle yields its inner
`canceller` field. -/
def Handle.deref (h : Handle) : Canceller :=
  h.canceller

/-- `Cancellable::run`, one unfolding at a time: `body` is `for_each`
acting on the loop-body state, `n` counts the `for_each` invocations
made so far, and the last argument is fuel.  `none` means the loop is
still running after that many iterations; on exit the result pairs the
source's `Result<(), E>` with the total invocation count. -/
def runAux {ε σ : Type} (body : σ → Except ε LoopState × σ) :
    σ → Nat → Nat → Option (Except ε Unit × Nat)
  | _, _, 0 => none
  | s, n, fuel + 1 =>
    match body s with
    | (Except.ok LoopState.Continue, s') => runAux body s' (n + 1) fuel
    | (Except.ok LoopState.Break, _) => some (Except.ok (), n + 1)
    | (Except.error e, _) => some (Except.error e, n + 1)

/-- `Cancellable::run`: drive `for_each` from the initial body state with
the given fuel, starting from zero invocations. -/
def Cancellable.run {ε σ : Type} (body : σ → Except ε LoopState × σ)
    (s : σ) (fuel : Nat) : Option (Except ε Unit × Nat) :=
  runAux body s 0 fuel

/-- Background loop of `Cancellable::spawn`:
`while keep_running.load(Ordering::SeqCst) { match self.for_each() { .. } } Ok(())`.
`flag t` is the value the atomic load returns at the t-th iteration
boundary (reads are indexed by boundary because cancellers store
concurrently); `n` counts `for_each` invocations; fuel as in `runAux`. -/
def spawnAux {ε σ : Type} (flag : Nat → Bool)
    (body : σ → Except ε LoopState × σ) :
    Nat → σ → Nat → Nat → Option (Except ε Unit × Nat)
  | _, _, _, 0 => none
  | t, s, n, fuel + 1 =>
    if flag t then
      match body s with
      | (Except.ok LoopState.Continue, s') =>
          spawnAux flag body (t + 1) s' (n + 1) fuel
      | (Except.ok LoopState.Break, _) => some (Except.ok (), n + 1)
      | (Except.error e, _) => some (Except.error e, n + 1)
    else
      some (Except.ok (), n)

/-- The spawned background loop, started at the first iteration boundary
with zero invocations made. -/
def spawnLoop {ε σ : Type} (flag : Nat → Bool)
    (body : σ → Except ε LoopState × σ) (s : σ) (fuel : Nat) :
    Option (Except ε Unit × Nat) :=
  spawnAux flag body 0 s 0 fuel

/-- `Cancellable::spawn` (allocation and handle construction): allocates
a fresh flag cell `newId` in the store, initialized to true
(`Arc::new(AtomicBool::new(true))`), and returns the `Handle` whose
`Canceller` shares that very cell.  The thread spawned to run the loop
over `_body`, reading cell `newId`, is modelled by `spawnAux`. -/
def Cancellable.spawn {ε σ : Type} (_body : σ → Except ε LoopState × σ)
    (newId : FlagId) (store : Store) : Handle × Store :=
  ({ canceller := { keep_running := newId } },
   fun i => if i = newId then true else store i)

/-- Outcome of `JoinHandle::join` as observed by `Handle::wait`: the
background thread either ran to completion with the loop's result, or
terminated abnormally (panicked). -/
inductive JoinOutcome (ε : Type) : Type
  | finished : Except ε Unit → JoinOutcome ε
  | panicked : JoinOutcome ε

/-- `Handle::wait(self)`: joins the background thread.  On `Ok(r)` the
loop result `r` is returned; on `Err(e)` (the thread panicked) `wait`
itself panics, aborting the waiting thread, so no value of the result
type is produced: modelled as `none`. -/
def Handle.wait {ε : Type} (j : JoinOutcome ε) : Option (Except ε Unit) :=
  match j with
  | JoinOutcome.finished r => some r
  | JoinOutcome.panicked => none

/-- Loop body whose state is the invocation index: the k-th call to
`for_each` yields `outcomes k`.  Every invocation sequence of an opaque
`for_each` is realized by such a body. -/
def seqBody {ε : Type} (outcomes : Nat → Except ε LoopState) :
    Nat → Except ε LoopState × Nat :=
  fun k => (outcomes k, k + 1)

/-- Loop body that returns Continue on its first three invocations and
Break on the fourth: the spec's concrete synchronous scenario. -/
def body3 : Nat → Except Unit LoopState × Nat :=
  seqBody (fun k =>
    if k < 3 then Except.ok LoopState.Continue else Except.ok LoopState.Break)

/-- Concrete three-outcome loop body used to exercise each driver case:
state 0 continues, state 1 breaks, any other state fails with `()`. -/
def caseBody : Nat → Except Unit LoopState × Nat :=
  fun s =>
    (if s = 0 then Except.ok LoopState.Continue
     else if s = 1 then Except.ok LoopState.Break
     else Except.error (), s + 1)

/-- Flag trace that reads true at boundary 0 and false at every later
boundary. -/
def caseFlag : Nat → Bool := fun t => t == 0

theorem runAux_skip {ε : Type} (o : Nat → Except ε LoopState) :
    ∀ (m j n fuel : Nat),
      (∀ i, i < m → o (j + i) = Except.ok LoopState.Continue) →
      runAux (seqBody o) j n (m + fuel) =
        runAux (seqBody o) (j + m) (n + m) fuel := by
  intro m
  induction m with
  | zero => intro j n fuel _; simp
  | succ m ih =>
      intro j n fuel h
      have h0 : o j = Except.ok LoopState.Continue := by
        have := h 0 (Nat.succ_pos m)
        simpa using this
      have hstep : runAux (seqBody o) j n (m + 1 + fuel) =
          runAux (seqBody o) (j + 1) (n + 1) (m + fuel) := by
        have : m + 1 + fuel = (m + fuel) + 1 := by omega
        rw [this]
        simp [runAux, seqBody, h0]
      rw [hstep, ih (j + 1) (n + 1) fuel]
      · congr 1 <;> omega
      · intro i hi
        have := h (i + 1) (by omega)
        have heq : j + 1 + i = j + (i + 1) := by omega
        rw [heq]
        exact this

theorem runAux_all_continue {ε : Type} (o : Nat → Except ε LoopState)
    (hall : ∀ i, o i = Except.ok LoopState.Continue) :
    ∀ (fuel j n : Nat), runAux (seqBody o) j n fuel = none := by
  intro fuel
  induction fuel with
  | zero => intro j n; simp [runAux]
  | succ fuel ih =>
      intro j n
      simp [runAux, seqBody, hall j, ih]

/-- C1: the asynchronous driver initializes the shared run flag to true,
and its background loop: exits reporting success without a step when the
flag reads false at an iteration boundary; after a Continue step loops
again re-checking the flag at the next boundary; after a Break step
exits reporting success; after a failing step terminates immediately
reporting exactly that failure, whatever the flag holds afterwards. -/
theorem spawn_loop_behavior {ε σ : Type}
    (flag : Nat → Bool) (body : σ → Except ε LoopState × σ)
    (t : Nat) (s : σ) (n fuel : Nat) (newId : FlagId) (store : Store) :
    (Cancellable.spawn body newId store).2 newId = true
    ∧ (flag t = false →
        spawnAux flag body t s n (fuel + 1) = some (Except.ok (), n))
    ∧ (∀ s', flag t = true → body s = (Except.ok LoopState.Continue, s') →
        spawnAux flag body t s n (fuel + 1) =
          spawnAux flag body (t + 1) s' (n + 1) fuel)
    ∧ (∀ s', flag t = true → body s = (Except.ok LoopState.Break, s') →
        spawnAux flag body t s n (fuel + 1) = some (Except.ok (), n + 1))
    ∧ (∀ s' e, flag t = true → body s = (Except.error e, s') →
        spawnAux flag body t s n (fuel + 1) = some (Except.error e, n + 1)) := by
  refine ⟨by simp [Cancellable.spawn], ?_, ?_, ?_, ?_⟩
  · intro hflag
    simp [spawnAux, hflag]
  · intro s' hflag hbody
    simp [spawnAux, hflag, hbody]
  · intro s' hflag hbody
    simp [spawnAux, hflag, hbody]
  · intro s' e hflag hbody
    simp [spawnAux, hflag, hbody]

theorem spawn_loop_behavior_witness :
    (Cancellable.spawn caseBody 0 (fun _ => false)).2 0 = true
    ∧ spawnAux caseFlag caseBody 1 0 0 (0 + 1) = some (Except.ok (), 0)
    ∧ spawnAux caseFlag caseBody 0 0 0 (0 + 1) = spawnAux caseFlag caseBody 1 1 1 0
    ∧ spawnAux caseFlag caseBody 0 1 0 (0 + 1) = some (Except.ok (), 1)
    ∧ spawnAux caseFlag caseBody 0 2 0 (0 + 1) = some (Except.error (), 1) := by
  refine ⟨?_, ?_, ?_, ?_, ?_⟩
  · exact (spawn_loop_behavior caseFlag caseBody 0 0 0 0 0 (fun _ => false)).1
  · exact (spawn_loop_behavior caseFlag caseBody 1 0 0 0 0 (fun _ => false)).2.1 rfl
  · exact (spawn_loop_behavior caseFlag caseBody 0 0 0 0 0 (fun _ => false)).2.2.1 1 rfl rfl
  · exact (spawn_loop_behavior caseFlag caseBody 0 1 0 0 0 (fun _ => false)).2.2.2.1 2 rfl rfl
  · exact (spawn_loop_behavior caseFlag caseBody 0 2 0 0 0 (fun _ => false)).2.2.2.2 3 () rfl rfl

/-- C2: the synchronous runner invokes the step repeatedly until a step
signals Break or fails: when the first non-Continue outcome is Break it
returns success after exactly k+1 invocations; when it is a failure it
returns exactly that failure after exactly k+1 invocations, so no step
runs after the failing one; and when every step continues it never
returns (no fuel suffices). -/
theorem run_behavior {ε : Type} (o : Nat → Except ε LoopState) (k : Nat)
    (hpre : ∀ i, i < k → o i = Except.ok LoopState.Continue) :
    (o k = Except.ok LoopState.Break → ∀ fuel,
        Cancellable.run (seqBody o) 0 (k + (fuel + 1)) =
          some (Except.ok (), k + 1))
    ∧ (∀ e, o k = Except.error e → ∀ fuel,
        Cancellable.run (seqBody o) 0 (k + (fuel + 1)) =
          some (Except.error e, k + 1))
    ∧ ((∀ i, o i = Except.ok LoopState.Continue) → ∀ fuel,
        Cancellable.run (seqBody o) 0 fuel = none) := by
  refine ⟨?_, ?_, ?_⟩
  · intro hk fuel
    have h1 := runAux_skip o k 0 0 (fuel + 1)
      (by intro i hi; simpa using hpre i hi)
    unfold Cancellable.run
    rw [h1]
    simp [runAux, seqBody, hk]
  · intro e hk fuel
    have h1 := runAux_skip o k 0 0 (fuel + 1)
      (by intro i hi; simpa using hpre i hi)
    unfold Cancellable.run
    rw [h1]
    simp [runAux, seqBody, hk]
  · intro hall fuel
    exact runAux_all_continue o hall fuel 0 0

theorem run_behavior_witness :
    Cancellable.run
        (seqBody (fun _ => (Except.ok LoopState.Break : Except Unit LoopState)))
        0 (0 + (0 + 1)) = some (Except.ok (), 0 + 1)
    ∧ Cancellable.run
        (seqBody (fun _ => (Except.error () : Except Unit LoopState)))
        0 (0 + (0 + 1)) = some (Except.error (), 0 + 1)
    ∧ Cancellable.run
        (seqBody (fun _ => (Except.ok LoopState.Continue : Except Unit LoopState)))
        0 7 = none := by
  refine ⟨?_, ?_, ?_⟩
  · exact (run_behavior (fun _ => Except.ok LoopState.Break) 0
      (fun i hi => absurd hi (Nat.not_lt_zero i))).1 rfl 0
  · exact (run_behavior (fun _ => Except.error ()) 0
      (fun i hi => absurd hi (Nat.not_lt_zero i))).2.1 () rfl 0
  · exact (run_behavior (fun _ => Except.ok LoopState.Continue) 0
      (fun i hi => absurd hi (Nat.not_lt_zero i))).2.2 (fun _ => rfl) 7

/-- C7: the loop body returning Continue exactly three times and then
Break, run through the synchronous runner, makes exactly 4 step
invocations and returns success, for every sufficient fuel. -/
theorem run_three_continues_then_break :
    ∀ fuel, Cancellable.run body3 0 (fuel + 4) = some (Except.ok (), 4) := by
  intro fuel
  rfl

/-- C4: the run flag is monotone — starting from any store, a sequence of
cancel stores never turns a false cell true (the only writes are stores
of false, so a cell reading true before a cancel already read true);
and once the background loop reads false at an iteration boundary it
exits at once with success and performs no further step invocations. -/
theorem flag_monotone_loop_stops {ε σ : Type}
    (flag : Nat → Bool) (body : σ → Except ε LoopState × σ) :
    (∀ (cs : List Canceller) (s : Store) (i : FlagId), s i = false →
        cs.foldl (fun st d => d.cancel st) s i = false)
    ∧ (∀ (c : Canceller) (s : Store) (i : FlagId),
        (c.cancel s) i = true → s i = true)
    ∧ (∀ (t : Nat) (s : σ) (n fuel : Nat), flag t = false →
        spawnAux flag body t s n (fuel + 1) = some (Except.ok (), n)) := by
  refine ⟨?_, ?_, ?_⟩
  · intro cs
    induction cs with
    | nil => intro s i hs; simpa using hs
    | cons d rest ih =>
        intro s i hs
        have hs' : (d.cancel s) i = false := by
          unfold Canceller.cancel
          by_cases hid : i = d.keep_running <;> simp [hid, hs]
        simpa using ih (d.cancel s) i hs'
  · intro c s i h
    unfold Canceller.cancel at h
    by_cases hid : i = c.keep_running
    · simp [hid] at h
    · simpa [hid] using h
  · intro t s n fuel hflag
    simp [spawnAux, hflag]

theorem flag_monotone_loop_stops_witness :
    [({ keep_running := 0 } : Canceller)].foldl
        (fun st d => d.cancel st) (fun _ => false) 0 = false
    ∧ (fun _ => true : Store) 1 = true
    ∧ spawnAux (fun _ => false) caseBody 0 0 0 (0 + 1) =
        some (Except.ok (), 0) := by
  refine ⟨?_, ?_, ?_⟩
  · exact (flag_monotone_loop_stops (fun _ => false) caseBody).1
      [{ keep_running := 0 }] (fun _ => false) 0 rfl
  · exact (flag_monotone_loop_stops (fun _ => false) caseBody).2.1
      { keep_running := 0 } (fun _ => true) 1 rfl
  · exact (flag_monotone_loop_stops (fun _ => false) caseBody).2.2 0 0 0 0 rfl

/-- C5: when the flag already reads false at the first iteration boundary
(cancel observed before any step), the background loop exits with zero
step invocations and success, so wait on that outcome returns success;
in general an exit via the flag check reports success, never an error. -/
theorem cancel_before_first_step {ε σ : Type}
    (flag : Nat → Bool) (body : σ → Except ε LoopState × σ)
    (s : σ) (fuel : Nat) (h0 : flag 0 = false) :
    spawnLoop flag body s (fuel + 1) = some (Except.ok (), 0)
    ∧ Handle.wait (JoinOutcome.finished (Except.ok () : Except ε Unit)) =
        some (Except.ok ())
    ∧ (∀ t n, flag t = false →
        spawnAux flag body t s n (fuel + 1) = some (Except.ok (), n)) := by
  refine ⟨?_, rfl, ?_⟩
  · simp [spawnLoop, spawnAux, h0]
  · intro t n ht
    simp [spawnAux, ht]

theorem cancel_before_first_step_witness :
    spawnLoop (fun _ => false) caseBody 0 (0 + 1) = some (Except.ok (), 0)
    ∧ Handle.wait (JoinOutcome.finished (Except.ok () : Except Unit Unit)) =
        some (Except.ok ())
    ∧ spawnAux (fun _ => false) caseBody 2 0 5 (0 + 1) =
        some (Except.ok (), 5) := by
  have h := cancel_before_first_step (fun _ => false) caseBody 0 0 rfl
  exact ⟨h.1, h.2.1, h.2.2 2 5 rfl⟩

theorem cancel_absorb (c d : Canceller) (s : Store)
    (hd : d.keep_running = c.keep_running) :
    c.cancel (d.cancel s) = c.cancel s := by
  funext i
  unfold Canceller.cancel
  by_cases hid : i = c.keep_running <;> simp [hid, hd]

/-- C8: cancel is idempotent — any nonempty sequence of cancel calls
through cancellers sharing the same flag cell leaves the store exactly
as a single cancel does; cancelling twice equals cancelling once; and
after a cancel the shared cell reads false. -/
theorem cancel_idempotent (c : Canceller) (s : Store) (cs : List Canceller)
    (hcs : ∀ d, d ∈ cs → d.keep_running = c.keep_running) (hne : cs ≠ []) :
    cs.foldl (fun st d => d.cancel st) s = c.cancel s
    ∧ c.cancel (c.cancel s) = c.cancel s
    ∧ (c.cancel s) c.keep_running = false := by
  have hfold : ∀ (ds : List Canceller), ds ≠ [] →
      (∀ d, d ∈ ds → d.keep_running = c.keep_running) →
      ∀ st : Store, ds.foldl (fun acc d => d.cancel acc) st = c.cancel st := by
    intro ds
    induction ds with
    | nil => intro h; exact absurd rfl h
    | cons d rest ih =>
        intro _ hmem st
        have hd : d.keep_running = c.keep_running := hmem d (by simp)
        by_cases hrest : rest = []
        · subst hrest
          show d.cancel st = c.cancel st
          funext i
          unfold Canceller.cancel
          by_cases hid : i = c.keep_running <;> simp [hid, hd]
        · show rest.foldl (fun acc d => d.cancel acc) (d.cancel st) = c.cancel st
          rw [ih hrest (fun e he => hmem e (by simp [he])) (d.cancel st)]
          exact cancel_absorb c d st hd
  exact ⟨hfold cs hne hcs s, cancel_absorb c c s rfl,
    by simp [Canceller.cancel]⟩

theorem cancel_idempotent_witness :
    [({ keep_running := 0 } : Canceller), { keep_running := 0 }].foldl
        (fun st d => d.cancel st) (fun _ => true) =
      Canceller.cancel { keep_running := 0 } (fun _ => true)
    ∧ Canceller.cancel { keep_running := 0 }
        (Canceller.cancel { keep_running := 0 } (fun _ => true)) =
      Canceller.cancel { keep_running := 0 } (fun _ => true)
    ∧ Canceller.cancel { keep_running := 0 } (fun _ => true) 0 = false := by
  exact cancel_idempotent { keep_running := 0 } (fun _ => true)
    [{ keep_running := 0 }, { keep_running := 0 }]
    (by
      intro d hd
      simp only [List.mem_cons, List.not_mem_nil, or_false] at hd
      rcases hd with h | h <;> subst h <;> rfl)
    (by simp)

/-- C9: cloning a Canceller yields one referring to the same flag cell,
so cancel through the clone rewrites the store exactly as cancel
through the original. -/
theorem clone_cancel_eq (c : Canceller) (s : Store) :
    (c.clone).cancel s = c.cancel s
    ∧ (c.clone).keep_running = c.keep_running :=
  ⟨rfl, rfl⟩

/-- C10: a Handle dereferences to its inner Canceller, that Canceller
wraps the very flag cell spawn allocated (the one the background thread
loads at each iteration boundary, initialized to true), and cancelling
through the dereferenced Handle stores false into that cell. -/
theorem handle_deref_cancel {ε σ : Type} (body : σ → Except ε LoopState × σ)
    (newId : FlagId) (store s2 : Store) :
    (Cancellable.spawn body newId store).1.deref =
      (Cancellable.spawn body newId store).1.canceller
    ∧ (Cancellable.spawn body newId store).1.canceller.keep_running = newId
    ∧ ((Cancellable.spawn body newId store).1.deref.cancel s2) newId = false
    ∧ (Cancellable.spawn body newId store).2 newId = true := by
  refine ⟨rfl, rfl, ?_, by simp [Cancellable.spawn]⟩
  simp [Cancellable.spawn, Handle.deref, Canceller.cancel]

/-- C6: wait returns the loop's final result whenever the background
thread finished normally, returns no value at all when the thread
terminated abnormally (the waiting thread aborts, a condition distinct
from any normal result), and produces a value only for a normally
finished thread carrying exactly that result. -/
theorem wait_result_semantics :
    (∀ (ε : Type) (r : Except ε Unit),
        Handle.wait (JoinOutcome.finished r) = some r)
    ∧ (∀ (ε : Type), Handle.wait (JoinOutcome.panicked : JoinOutcome ε) = none)
    ∧ (∀ (ε : Type),
        (Handle.wait (JoinOutcome.panicked : JoinOutcome ε)).isSome = false)
    ∧ (∀ (ε : Type) (j : JoinOutcome ε) (r : Except ε Unit),
        Handle.wait j = some r → j = JoinOutcome.finished r) := by
  refine ⟨fun ε r => rfl, fun ε => rfl, fun ε => rfl, ?_⟩
  intro ε j r hj
  cases j with
  | finished r' =>
      simp only [Handle.wait, Option.some.injEq] at hj
      rw [hj]
  | panicked => simp [Handle.wait] at hj

theorem wait_result_semantics_witness :
    Handle.wait (JoinOutcome.finished (Except.ok () : Except Unit Unit)) =
      some (Except.ok ())
    ∧ Handle.wait (JoinOutcome.panicked : JoinOutcome Unit) = none
    ∧ (Handle.wait (JoinOutcome.panicked : JoinOutcome Unit)).isSome = false
    ∧ (JoinOutcome.finished (Except.ok ()) : JoinOutcome Unit) =
        JoinOutcome.finished (Except.ok ()) := by
  refine ⟨wait_result_semantics.1 Unit (Except.ok ()),
    wait_result_semantics.2.1 Unit,
    wait_result_semantics.2.2.1 Unit,
    wait_result_semantics.2.2.2 Unit
      (JoinOutcome.finished (Except.ok ())) (Except.ok ()) rfl⟩

/-- C3: src/lib.rs defines no `canceller()` method on Handle (the spec
and the bundled example both call one); the capability the code does
provide is dereferencing the Handle to its inner Canceller and cloning
it, which yields, any number of times, a fresh Canceller sharing the
same flag cell and acting on the store identically. -/
theorem canceller_via_deref_clone (h : Handle) (s : Store) :
    (h.deref.clone).keep_running = h.canceller.keep_running
    ∧ ((h.deref.clone).clone).keep_running = h.canceller.keep_running
    ∧ (h.deref.clone).cancel s = h.canceller.cancel s :=
  ⟨rfl, rfl, rfl⟩
